import Mathlib

/-!
Shallow embedding of the core logic of
`src/azure.healthcare_.py` (IoT / cloud health monitoring with emergency
alerts): alert-message composition (`shorten_message`,
`create_alert_message`), transport chunking (`send_twilio_alert`'s use of
`textwrap.wrap`), threshold evaluation (`evaluate_alerts`) and the
timestamp merge of `save_to_csv`.

Python strings are modelled as `List Char` (Python `len` counts code
points, as does `List.length`; slicing `s[:-k]` is `List.take`), numeric
values as `ℚ`, and Python values that `float()` rejects as an explicit
non-numeric constructor.
-/

namespace HealthMonitor

/-- A Python string literal as a list of characters. -/
def pyStr (s : String) : List Char := s.data

/-- The `base = f"HR:{latest_hr}bpm SpO₂:{latest_spo2}% Time:{timestamp} "`
field of `shorten_message` (source line 194): the HR/SpO₂/Time portion. -/
def smBase (latest_hr latest_spo2 timestamp : List Char) : List Char :=
  pyStr "HR:" ++ latest_hr ++ pyStr "bpm SpO₂:" ++ latest_spo2
    ++ pyStr "% Time:" ++ timestamp ++ pyStr " "

/-- The `links = f"H:{hospitals_link}"` field of `shorten_message`
(source line 195). -/
def smLinks (hospitals_link : List Char) : List Char :=
  pyStr "H:" ++ hospitals_link

/-- Model of `shorten_message` (source lines 193–203).  If `base ++ links` exceeds
the limit and the excess is strictly smaller than `links`' length, drops
exactly `excess` characters from the end of `links` (`links[:-excess]`);
otherwise `links` is left unchanged.  `SMS_CHAR_LIMIT` is the
configuration value, passed here as the `limit` argument. -/
def shorten_message (limit : Nat)
    (latest_hr latest_spo2 timestamp hospitals_link : List Char) :
    List Char :=
  let base := smBase latest_hr latest_spo2 timestamp
  let links := smLinks hospitals_link
  let message := base ++ links
  if message.length > limit then
    let excess := message.length - limit
    let links2 := if excess < links.length
      then links.take (links.length - excess) else links
    base ++ links2
  else
    message

/-- Python `str.lower()` (character-wise lowercasing). -/
def pyLower (s : List Char) : List Char := s.map Char.toLower

/-- The flag `TRIAL_ACCOUNT` (source line 40):
`os.getenv("TRIAL_ACCOUNT", "true").lower() in ("1", "true", "yes")`.
The argument is the raw environment value, `none` when the variable is
absent (then `os.getenv` returns the default `"true"`). -/
def trial_account (env : Option (List Char)) : Bool :=
  [pyStr "1", pyStr "true", pyStr "yes"].contains (pyLower (env.getD (pyStr "true")))

/-- The full-mode multi-line message of `create_alert_message`
(source lines 210–214). -/
def full_message (latest_hr latest_spo2 timestamp hospitals_link : List Char) :
    List Char :=
  pyStr "Alert\nPatient: XXXXXX\nHeart Rate: " ++ latest_hr
    ++ pyStr "bpm\nSpO₂: " ++ latest_spo2
    ++ pyStr "%\nTime: " ++ timestamp
    ++ pyStr "\nHospitals: " ++ hospitals_link

/-- Model of `create_alert_message` (source lines 206–214).  The wall-clock
timestamp rendered on line 207 is passed in as the `timestamp`
argument; `env` is the raw `TRIAL_ACCOUNT` environment value and
`limit` the `SMS_CHAR_LIMIT` configuration. -/
def create_alert_message (env : Option (List Char)) (limit : Nat)
    (latest_hr latest_spo2 timestamp hospitals_link : List Char) :
    List Char :=
  if trial_account env then
    shorten_message limit latest_hr latest_spo2 timestamp hospitals_link
  else
    full_message latest_hr latest_spo2 timestamp hospitals_link


/-- A Python sample value as seen by the evaluator: either a value that
`float()` converts to the rational `q`, or a value (such as the string
`"N/A"`) on which `float()` raises, carried with its `str()` rendering. -/
inductive PyVal where
  | num (q : ℚ)
  | nonNum (tag : String)
deriving DecidableEq

/-- Python `float(v)` as used in the guarded comparisons of
`evaluate_alerts`: `some` the numeric value, `none` when `float()`
raises (the surrounding `try`/`except: continue`). -/
def PyVal.toFloat? : PyVal → Option ℚ
  | num q => some q
  | nonNum _ => none

/-- The `str()` rendering interpolated into reason f-strings (numeric
formatting abstracted to `toString`). -/
def PyVal.render : PyVal → List Char
  | num q => (toString q).data
  | nonNum tag => tag.data

/-- A `(timestamp, value)` pair as produced by `get_dataset`; the
timestamp is an ISO string, modelled as a character list. -/
abbrev Sample := List Char × PyVal

/-- The threshold configuration (source lines 23–27): `HR_LOW_THRESHOLD`,
`SPO2_LOW_THRESHOLD`, and the optional `HR_HIGH_THRESHOLD` (`none` when
the environment variable is unset). -/
structure Thresholds where
  hrLow : ℚ
  spo2Low : ℚ
  hrHigh : Option ℚ
deriving DecidableEq

/-- The f-string `"Low HR {hr_val} bpm at {ts} (≤ {HR_LOW_THRESHOLD})"` of line 247. -/
def mkLowHRReason (cfg : Thresholds) (ts : List Char) (v : PyVal) : List Char :=
  pyStr "Low HR " ++ v.render ++ pyStr " bpm at " ++ ts
    ++ pyStr " (≤ " ++ (toString cfg.hrLow).data ++ pyStr ")"

/-- The f-string `"High HR {hr_val} bpm at {ts} (≥ {HR_HIGH_THRESHOLD})"` of line 256. -/
def mkHighHRReason (high : ℚ) (ts : List Char) (v : PyVal) : List Char :=
  pyStr "High HR " ++ v.render ++ pyStr " bpm at " ++ ts
    ++ pyStr " (≥ " ++ (toString high).data ++ pyStr ")"

/-- The f-string `"Low SpO₂ {sp_val}% at {ts} (≤ {SPO2_LOW_THRESHOLD})"` of line 264. -/
def mkLowSpO2Reason (cfg : Thresholds) (ts : List Char) (v : PyVal) : List Char :=
  pyStr "Low SpO₂ " ++ v.render ++ pyStr "% at " ++ ts
    ++ pyStr " (≤ " ++ (toString cfg.spo2Low).data ++ pyStr ")"

/-- One iteration of the low-heart-rate loop (lines 244–250): the reason
appended for the sample, or `none` when `float()` raises or the bound is
not crossed. -/
def lowHRCheck (cfg : Thresholds) (s : Sample) : Option (List Char) :=
  match s.2.toFloat? with
  | some q => if q ≤ cfg.hrLow then some (mkLowHRReason cfg s.1 s.2) else none
  | none => none

/-- One iteration of the high-heart-rate loop (lines 252–259). -/
def highHRCheck (high : ℚ) (s : Sample) : Option (List Char) :=
  match s.2.toFloat? with
  | some q => if high ≤ q then some (mkHighHRReason high s.1 s.2) else none
  | none => none

/-- One iteration of the low-oxygen loop (lines 261–267). -/
def spo2LowCheck (cfg : Thresholds) (s : Sample) : Option (List Char) :=
  match s.2.toFloat? with
  | some q => if q ≤ cfg.spo2Low then some (mkLowSpO2Reason cfg s.1 s.2) else none
  | none => none

/-- One scanning loop of `evaluate_alerts`: starting from the current
`(alert_needed, reasons)` state, for each sample whose check fires append
its reason and set the flag. -/
def scanPass (f : Sample → Option (List Char)) (st : Bool × List (List Char))
    (data : List Sample) : Bool × List (List Char) :=
  data.foldl
    (fun acc s =>
      match f s with
      | some r => (true, acc.2 ++ [r])
      | none => acc)
    st

/-- The result quadruple of `evaluate_alerts`. -/
structure EvalResult where
  needs_alert : Bool
  reasons : List (List Char)
  latest_hr : PyVal
  latest_spo2 : PyVal
deriving DecidableEq

/-- Model of `evaluate_alerts(heart_data, spo2_data)` (source lines 237–269):
latest values are the raw last elements (`heart_data[-1][1]`) or the
string `"N/A"` when a series is empty; then the three sequential scanning
loops (heart-rate low; heart-rate high, only when `HR_HIGH_THRESHOLD` is
configured; oxygen low) accumulate reasons and the alert flag. -/
def evaluate_alerts (cfg : Thresholds) (heart_data spo2_data : List Sample) :
    EvalResult :=
  let latest_hr := match heart_data.getLast? with
    | some p => p.2
    | none => PyVal.nonNum "N/A"
  let latest_spo2 := match spo2_data.getLast? with
    | some p => p.2
    | none => PyVal.nonNum "N/A"
  let st1 := scanPass (lowHRCheck cfg) (false, []) heart_data
  let st2 := match cfg.hrHigh with
    | some h => scanPass (highHRCheck h) st1 heart_data
    | none => st1
  let st3 := scanPass (spo2LowCheck cfg) st2 spo2_data
  ⟨st3.1, st3.2, latest_hr, latest_spo2⟩

/-- The merged timestamp view of `save_to_csv` (source lines 121–129):
`all_times = sorted(set(heart timestamps + spo2 timestamps))`, and per
timestamp the first matching value of each series
(`next((v for ts, v in data if ts == t), "")`), with `none` standing for
the empty-string marker of a missing side. -/
def mergedRows (heart_data spo2_data : List Sample) :
    List (List Char × Option PyVal × Option PyVal) :=
  let all_times := List.insertionSort (fun a b : List Char => a ≤ b)
    ((heart_data.map Prod.fst ++ spo2_data.map Prod.fst).dedup)
  all_times.map (fun t =>
    (t, (heart_data.find? (fun p => p.1 == t)).map Prod.snd,
        (spo2_data.find? (fun p => p.1 == t)).map Prod.snd))

/-! ## Theorems -/

/-- C1 (amended): when the unshortened compact message `base ++ links`
exceeds the limit by `K` characters, then (i) if `K` is strictly smaller
than the link field's length the output is `base` (byte-identical
HR/SpO₂/Time portion) followed by the link field with exactly its last
`K` characters removed, and the result has exactly the limit's length;
(ii) if `K` is greater than or equal to the link field's length the code
leaves the link field unchanged and returns the over-length unshortened
message (it does not collapse the link to empty). -/
theorem C1_shorten_trims_link_only (limit : Nat) (hr spo2 ts link : List Char)
    (hover : (smBase hr spo2 ts ++ smLinks link).length > limit) :
    ((smBase hr spo2 ts ++ smLinks link).length - limit < (smLinks link).length →
      shorten_message limit hr spo2 ts link
        = smBase hr spo2 ts
          ++ (smLinks link).take
            ((smLinks link).length
              - ((smBase hr spo2 ts ++ smLinks link).length - limit))
      ∧ (shorten_message limit hr spo2 ts link).length = limit)
    ∧ ((smLinks link).length ≤ (smBase hr spo2 ts ++ smLinks link).length - limit →
      shorten_message limit hr spo2 ts link
        = smBase hr spo2 ts ++ smLinks link) := by
  constructor
  · intro hlt
    have heq : shorten_message limit hr spo2 ts link
        = smBase hr spo2 ts
          ++ (smLinks link).take
            ((smLinks link).length
              - ((smBase hr spo2 ts ++ smLinks link).length - limit)) := by
      simp only [shorten_message]
      rw [if_pos hover, if_pos hlt]
    refine ⟨heq, ?_⟩
    rw [heq]
    have hbl : (smBase hr spo2 ts ++ smLinks link).length
        = (smBase hr spo2 ts).length + (smLinks link).length :=
      List.length_append ..
    rw [List.length_append, List.length_take]
    omega
  · intro hge
    simp only [shorten_message]
    rw [if_pos hover, if_neg (by omega)]

/-- C1 witness: limit 25, HR `9`, SpO₂ `9`, time `T`, link `L`: the
message is 26 characters, the overflow 1 is smaller than the link
field's length 3, and exactly one character is trimmed from the link
field's end. -/
theorem C1_witness :
    shorten_message 25 (pyStr "9") (pyStr "9") (pyStr "T") (pyStr "L")
      = smBase (pyStr "9") (pyStr "9") (pyStr "T")
        ++ (smLinks (pyStr "L")).take
          ((smLinks (pyStr "L")).length
            - ((smBase (pyStr "9") (pyStr "9") (pyStr "T")
                ++ smLinks (pyStr "L")).length - 25))
    ∧ (shorten_message 25 (pyStr "9") (pyStr "9") (pyStr "T") (pyStr "L")).length
        = 25 :=
  (C1_shorten_trims_link_only 25 (pyStr "9") (pyStr "9") (pyStr "T") (pyStr "L")
    (by decide)).1 (by decide)

/-- C1 counterexample: with limit 5 the message `HR:9bpm SpO₂:9% Time:T H:L`
(26 characters) overflows by 21 ≥ 3, the link field's length.  The claim
says the link field then collapses to empty (clamp at zero retained
characters), i.e. the output would be `base ++ []`; the code instead
returns the message unchanged, full link field included. -/
theorem C1_counterexample :
    (smBase (pyStr "9") (pyStr "9") (pyStr "T") ++ smLinks (pyStr "L")).length > 5
    ∧ (smLinks (pyStr "L")).length
        ≤ (smBase (pyStr "9") (pyStr "9") (pyStr "T")
            ++ smLinks (pyStr "L")).length - 5
    ∧ shorten_message 5 (pyStr "9") (pyStr "9") (pyStr "T") (pyStr "L")
        ≠ smBase (pyStr "9") (pyStr "9") (pyStr "T")
          ++ (smLinks (pyStr "L")).take
            ((smLinks (pyStr "L")).length
              - ((smBase (pyStr "9") (pyStr "9") (pyStr "T")
                  ++ smLinks (pyStr "L")).length - 5)) := by
  decide

/-- C2 (amended): the compact-vs-full selection is the boolean
`TRIAL_ACCOUNT` flag: when it resolves true the compact (shortened
single-line) message is produced and when it resolves false the full
multi-line message is produced; a set flag resolves true exactly when its
lowercased value is `1`, `true` or `yes`; and when the flag is absent
from the configuration the default `"true"` applies, so compact mode
(not full mode) is used. -/
theorem C2_mode_resolution (limit : Nat) (hr spo2 ts link : List Char)
    (env : Option (List Char)) :
    (trial_account env = true →
      create_alert_message env limit hr spo2 ts link
        = shorten_message limit hr spo2 ts link)
    ∧ (trial_account env = false →
      create_alert_message env limit hr spo2 ts link
        = full_message hr spo2 ts link)
    ∧ trial_account none = true
    ∧ (∀ s, trial_account (some s) = true ↔
        (pyLower s = pyStr "1" ∨ pyLower s = pyStr "true" ∨ pyLower s = pyStr "yes")) := by
  refine ⟨?_, ?_, by decide, ?_⟩
  · intro h
    simp only [create_alert_message, if_pos h]
  · intro h
    simp only [create_alert_message, h]
    simp
  · intro s
    simp only [trial_account, Option.getD, List.contains, List.elem]
    constructor
    · intro h
      by_cases h1 : pyLower s = pyStr "1"
      · exact Or.inl h1
      · by_cases h2 : pyLower s = pyStr "true"
        · exact Or.inr (Or.inl h2)
        · by_cases h3 : pyLower s = pyStr "yes"
          · exact Or.inr (Or.inr h3)
          · rw [beq_false_of_ne (by simpa [eq_comm] using h1),
              beq_false_of_ne (by simpa [eq_comm] using h2),
              beq_false_of_ne (by simpa [eq_comm] using h3)] at h
            exact absurd h (by decide)
    · rintro (h | h | h) <;> rw [h] <;> decide

/-- C2 witness: with the flag absent, the evaluated composition is the
compact (shortened) message and the resolved flag is true. -/
theorem C2_witness :
    create_alert_message none 25 (pyStr "9") (pyStr "9") (pyStr "T") (pyStr "L")
      = shorten_message 25 (pyStr "9") (pyStr "9") (pyStr "T") (pyStr "L") :=
  (C2_mode_resolution 25 (pyStr "9") (pyStr "9") (pyStr "T") (pyStr "L") none).1
    (by decide)

/-- C2 counterexample: with the flag absent from the configuration the
code resolves `TRIAL_ACCOUNT` to true (the `os.getenv` default is
`"true"`), so the compact message is produced — not the multi-line full
message the claim requires. -/
theorem C2_counterexample :
    trial_account none = true
    ∧ create_alert_message none 5 (pyStr "9") (pyStr "9") (pyStr "T") (pyStr "L")
        ≠ full_message (pyStr "9") (pyStr "9") (pyStr "T") (pyStr "L") := by
  decide

theorem scanPass_eq (f : Sample → Option (List Char))
    (st : Bool × List (List Char)) (data : List Sample) :
    scanPass f st data
      = (st.1 || data.any (fun s => (f s).isSome), st.2 ++ data.filterMap f) := by
  induction data generalizing st with
  | nil => simp [scanPass]
  | cons s rest ih =>
    simp only [scanPass, List.foldl_cons] at ih ⊢
    cases hfs : f s with
    | some r =>
      have hred : (match some r with
          | some r => ((true, st.2 ++ [r]) : Bool × List (List Char))
          | none => st) = (true, st.2 ++ [r]) := rfl
      rw [hred, ih]
      simp [hfs, List.filterMap_cons]
    | none =>
      have hred : (match (none : Option (List Char)) with
          | some r => ((true, st.2 ++ [r]) : Bool × List (List Char))
          | none => st) = st := rfl
      rw [hred, ih]
      simp [hfs, List.filterMap_cons]

theorem evaluate_alerts_reasons (cfg : Thresholds) (heart spo2 : List Sample) :
    (evaluate_alerts cfg heart spo2).reasons
      = heart.filterMap (lowHRCheck cfg)
        ++ (match cfg.hrHigh with
            | some h => heart.filterMap (highHRCheck h)
            | none => [])
        ++ spo2.filterMap (spo2LowCheck cfg) := by
  cases hh : cfg.hrHigh <;>
    simp [evaluate_alerts, hh, scanPass_eq, List.append_assoc]

theorem evaluate_alerts_flag (cfg : Thresholds) (heart spo2 : List Sample) :
    (evaluate_alerts cfg heart spo2).needs_alert
      = (heart.any (fun s => (lowHRCheck cfg s).isSome)
        || (match cfg.hrHigh with
            | some h => heart.any (fun s => (highHRCheck h s).isSome)
            | none => false)
        || spo2.any (fun s => (spo2LowCheck cfg s).isSome)) := by
  cases hh : cfg.hrHigh <;>
    simp [evaluate_alerts, hh, scanPass_eq, Bool.or_assoc]

theorem any_isSome_iff_filterMap_ne_nil (f : Sample → Option (List Char))
    (l : List Sample) :
    l.any (fun s => (f s).isSome) = true ↔ l.filterMap f ≠ [] := by
  rw [List.any_eq_true]
  constructor
  · rintro ⟨s, hs, hsome⟩ hnil
    rw [List.filterMap_eq_nil_iff] at hnil
    rw [hnil s hs] at hsome
    simp at hsome
  · intro hne
    rcases hfm : l.filterMap f with _ | ⟨r, rest⟩
    · exact absurd hfm hne
    · have : r ∈ l.filterMap f := by rw [hfm]; exact List.mem_cons_self _ _
      rw [List.mem_filterMap] at this
      obtain ⟨s, hs, hfs⟩ := this
      exact ⟨s, hs, by simp [hfs]⟩

/-- C7 (confirmed): the evaluator's reasons list is non-empty exactly when
its alert flag is true: each scanning loop sets `alert_needed` in the same
iteration in which it appends a reason, so the flag is true iff some loop
appended. -/
theorem C7_reasons_iff_needs_alert (cfg : Thresholds) (heart spo2 : List Sample) :
    (evaluate_alerts cfg heart spo2).needs_alert = true
      ↔ (evaluate_alerts cfg heart spo2).reasons ≠ [] := by
  rw [evaluate_alerts_flag, evaluate_alerts_reasons]
  cases hh : cfg.hrHigh with
  | none =>
    simp only [Bool.or_eq_true, any_isSome_iff_filterMap_ne_nil, Bool.or_false,
      List.nil_append, ne_eq, List.append_eq_nil]
    tauto
  | some hi =>
    simp only [Bool.or_eq_true, any_isSome_iff_filterMap_ne_nil, ne_eq,
      List.append_eq_nil]
    tauto

/-- C6 (confirmed): the evaluator's reasons list is the heart-rate-low
pass, then the heart-rate-high pass (empty when no high bound is
configured), then the oxygen-low pass, each pass a `filterMap` over its
sample sequence and hence in source order within the pass. -/
theorem C6_reason_ordering (cfg : Thresholds) (heart spo2 : List Sample) :
    (evaluate_alerts cfg heart spo2).reasons
      = heart.filterMap (lowHRCheck cfg)
        ++ (match cfg.hrHigh with
            | some h => heart.filterMap (highHRCheck h)
            | none => [])
        ++ spo2.filterMap (spo2LowCheck cfg) :=
  evaluate_alerts_reasons cfg heart spo2

/-- C4 (confirmed): a heart-rate sample whose numeric value is at or
below the low bound makes `needs_alert` true and contributes its reason
(which names the sample's timestamp) to the output; a heart-rate sample
whose numeric value lies strictly between the low bound and a configured
high bound passes both heart-rate checks without generating a reason. -/
theorem C4_threshold_triggering (cfg : Thresholds) (heart spo2 : List Sample) :
    (∀ ts v q, (ts, v) ∈ heart → PyVal.toFloat? v = some q → q ≤ cfg.hrLow →
      (evaluate_alerts cfg heart spo2).needs_alert = true
      ∧ mkLowHRReason cfg ts v ∈ (evaluate_alerts cfg heart spo2).reasons)
    ∧ (∀ ts v q high, cfg.hrHigh = some high → PyVal.toFloat? v = some q →
        cfg.hrLow < q → q < high →
        lowHRCheck cfg (ts, v) = none ∧ highHRCheck high (ts, v) = none) := by
  constructor
  · intro ts v q hmem htf hle
    have hcheck : lowHRCheck cfg (ts, v) = some (mkLowHRReason cfg ts v) := by
      simp [lowHRCheck, htf, hle]
    constructor
    · rw [evaluate_alerts_flag]
      have : heart.any (fun s => (lowHRCheck cfg s).isSome) = true :=
        List.any_eq_true.mpr ⟨(ts, v), hmem, by simp [hcheck]⟩
      simp [this]
    · rw [evaluate_alerts_reasons]
      refine List.mem_append_left _ (List.mem_append_left _ ?_)
      exact List.mem_filterMap.mpr ⟨(ts, v), hmem, hcheck⟩
  · intro ts v q high hhigh htf hlow hhi
    constructor
    · simp only [lowHRCheck, htf]
      rw [if_neg (not_le.mpr hlow)]
    · simp only [highHRCheck, htf]
      rw [if_neg (not_le.mpr hhi)]

/-- C4 witness: low bound 50, high bound 120; the 48 bpm sample at `T1`
triggers the alert with its reason present, and an 80 bpm sample (strictly
between the bounds) passes both heart-rate checks reason-free. -/
theorem C4_witness :
    ((evaluate_alerts ⟨50, 90, some 120⟩ [(pyStr "T1", PyVal.num 48)] []).needs_alert
        = true
      ∧ mkLowHRReason ⟨50, 90, some 120⟩ (pyStr "T1") (PyVal.num 48)
          ∈ (evaluate_alerts ⟨50, 90, some 120⟩ [(pyStr "T1", PyVal.num 48)] []).reasons)
    ∧ (lowHRCheck ⟨50, 90, some 120⟩ (pyStr "T2", PyVal.num 80) = none
      ∧ highHRCheck 120 (pyStr "T2", PyVal.num 80) = none) := by
  refine ⟨?_, ?_⟩
  · exact (C4_threshold_triggering ⟨50, 90, some 120⟩
      [(pyStr "T1", PyVal.num 48)] []).1
      (pyStr "T1") (PyVal.num 48) 48 (List.mem_cons_self _ _) rfl (by decide)
  · exact (C4_threshold_triggering ⟨50, 90, some 120⟩
      [(pyStr "T1", PyVal.num 48)] []).2
      (pyStr "T2") (PyVal.num 80) 80 120 rfl rfl (by decide) (by decide)

/-- C8 (confirmed): the evaluator's latest values are the raw value of
the last element of each series, and the explicit `"N/A"` sentinel for an
empty series; being a total function, the evaluator never crashes on an
empty series. -/
theorem C8_latest_values (cfg : Thresholds) (heart spo2 : List Sample) :
    (heart = [] →
      (evaluate_alerts cfg heart spo2).latest_hr = PyVal.nonNum "N/A")
    ∧ (∀ pre ts v, heart = pre ++ [(ts, v)] →
      (evaluate_alerts cfg heart spo2).latest_hr = v)
    ∧ (spo2 = [] →
      (evaluate_alerts cfg heart spo2).latest_spo2 = PyVal.nonNum "N/A")
    ∧ (∀ pre ts v, spo2 = pre ++ [(ts, v)] →
      (evaluate_alerts cfg heart spo2).latest_spo2 = v) := by
  refine ⟨?_, ?_, ?_, ?_⟩
  · intro h
    subst h
    simp [evaluate_alerts]
  · intro pre ts v h
    subst h
    simp [evaluate_alerts, List.getLast?_concat]
  · intro h
    subst h
    simp [evaluate_alerts]
  · intro pre ts v h
    subst h
    simp [evaluate_alerts, List.getLast?_concat]

/-- C8 witness: a two-sample heart series yields its last raw value, and
an empty oxygen series yields the `"N/A"` sentinel. -/
theorem C8_witness :
    (evaluate_alerts ⟨50, 90, none⟩
      [(pyStr "T1", PyVal.num 48), (pyStr "T2", PyVal.num 72)] []).latest_hr
        = PyVal.num 72
    ∧ (evaluate_alerts ⟨50, 90, none⟩
      [(pyStr "T1", PyVal.num 48), (pyStr "T2", PyVal.num 72)] []).latest_spo2
        = PyVal.nonNum "N/A" := by
  refine ⟨?_, ?_⟩
  · exact (C8_latest_values ⟨50, 90, none⟩
      [(pyStr "T1", PyVal.num 48), (pyStr "T2", PyVal.num 72)] []).2.1
      [(pyStr "T1", PyVal.num 48)] (pyStr "T2") (PyVal.num 72) rfl
  · exact (C8_latest_values ⟨50, 90, none⟩
      [(pyStr "T1", PyVal.num 48), (pyStr "T2", PyVal.num 72)] []).2.2.1 rfl

/-- C9 (confirmed): a sample on which `float()` raises contributes no
reason and does not affect the alert flag, and the scan of all remaining
samples is unaffected — removing the malformed sample from either series
leaves `needs_alert` and `reasons` unchanged.  (The evaluator is a Lean
function, total on all input shapes by construction.) -/
theorem C9_malformed_skipped (cfg : Thresholds) (ts : List Char) (v : PyVal)
    (hv : PyVal.toFloat? v = none) (pre post other : List Sample) :
    ((evaluate_alerts cfg (pre ++ (ts, v) :: post) other).needs_alert
        = (evaluate_alerts cfg (pre ++ post) other).needs_alert
      ∧ (evaluate_alerts cfg (pre ++ (ts, v) :: post) other).reasons
        = (evaluate_alerts cfg (pre ++ post) other).reasons)
    ∧ ((evaluate_alerts cfg other (pre ++ (ts, v) :: post)).needs_alert
        = (evaluate_alerts cfg other (pre ++ post)).needs_alert
      ∧ (evaluate_alerts cfg other (pre ++ (ts, v) :: post)).reasons
        = (evaluate_alerts cfg other (pre ++ post)).reasons) := by
  have hlow : lowHRCheck cfg (ts, v) = none := by simp [lowHRCheck, hv]
  have hsp : spo2LowCheck cfg (ts, v) = none := by simp [spo2LowCheck, hv]
  have hhigh : ∀ hi, highHRCheck hi (ts, v) = none := by
    intro hi
    simp [highHRCheck, hv]
  refine ⟨⟨?_, ?_⟩, ⟨?_, ?_⟩⟩
  · rw [evaluate_alerts_flag, evaluate_alerts_flag]
    cases cfg.hrHigh <;>
      simp [List.any_append, hlow, hsp, hhigh]
  · rw [evaluate_alerts_reasons, evaluate_alerts_reasons]
    cases cfg.hrHigh <;>
      simp [List.filterMap_append, hlow, hsp, hhigh]
  · rw [evaluate_alerts_flag, evaluate_alerts_flag]
    cases cfg.hrHigh <;>
      simp [List.any_append, hlow, hsp, hhigh]
  · rw [evaluate_alerts_reasons, evaluate_alerts_reasons]
    cases cfg.hrHigh <;>
      simp [List.filterMap_append, hlow, hsp, hhigh]

/-- C9 witness: inserting a non-numeric sample in front of a triggering
48 bpm sample changes neither the flag nor the reasons. -/
theorem C9_witness :
    (evaluate_alerts ⟨50, 90, none⟩
        ([] ++ (pyStr "T0", PyVal.nonNum "oops") :: [(pyStr "T1", PyVal.num 48)])
        []).needs_alert
      = (evaluate_alerts ⟨50, 90, none⟩
        ([] ++ [(pyStr "T1", PyVal.num 48)]) []).needs_alert
    ∧ (evaluate_alerts ⟨50, 90, none⟩
        ([] ++ (pyStr "T0", PyVal.nonNum "oops") :: [(pyStr "T1", PyVal.num 48)])
        []).reasons
      = (evaluate_alerts ⟨50, 90, none⟩
        ([] ++ [(pyStr "T1", PyVal.num 48)]) []).reasons :=
  (C9_malformed_skipped ⟨50, 90, none⟩ (pyStr "T0") (PyVal.nonNum "oops") rfl
    [] [(pyStr "T1", PyVal.num 48)] []).1

theorem mergedRows_keys (heart spo2 : List Sample) :
    (mergedRows heart spo2).map Prod.fst
      = List.insertionSort (fun a b : List Char => a ≤ b)
          ((heart.map Prod.fst ++ spo2.map Prod.fst).dedup) := by
  simp only [mergedRows, List.map_map]
  exact List.map_id _

theorem mem_mergedRows_keys (heart spo2 : List Sample) (t : List Char) :
    t ∈ (mergedRows heart spo2).map Prod.fst
      ↔ (t ∈ heart.map Prod.fst ∨ t ∈ spo2.map Prod.fst) := by
  rw [mergedRows_keys, List.mem_insertionSort, List.mem_dedup, List.mem_append]

theorem mergedRows_keys_nodup (heart spo2 : List Sample) :
    ((mergedRows heart spo2).map Prod.fst).Nodup := by
  rw [mergedRows_keys]
  exact ((List.perm_insertionSort _ _).nodup_iff).mpr (List.nodup_dedup _)

theorem mergedRows_keys_sorted (heart spo2 : List Sample) :
    List.Sorted (fun a b : List Char => a ≤ b)
      ((mergedRows heart spo2).map Prod.fst) := by
  rw [mergedRows_keys]
  exact List.sorted_insertionSort _ _

theorem mergedRows_cells (heart spo2 : List Sample) :
    ∀ r ∈ mergedRows heart spo2,
      r.2.1 = (heart.find? (fun p => p.1 == r.1)).map Prod.snd
      ∧ r.2.2 = (spo2.find? (fun p => p.1 == r.1)).map Prod.snd := by
  intro r hr
  simp only [mergedRows, List.mem_map] at hr
  obtain ⟨t, ht, rfl⟩ := hr
  exact ⟨rfl, rfl⟩

theorem find?_ts_isSome_iff (data : List Sample) (t : List Char) :
    (data.find? (fun p => p.1 == t)).isSome = true ↔ t ∈ data.map Prod.fst := by
  rw [List.find?_isSome, List.mem_map]
  constructor
  · rintro ⟨p, hp, hbeq⟩
    exact ⟨p, hp, by simpa using hbeq⟩
  · rintro ⟨p, hp, heq⟩
    exact ⟨p, hp, by simp [heq]⟩

theorem find?_ts_some_mem (data : List Sample) (t : List Char) (v : PyVal)
    (h : (data.find? (fun p => p.1 == t)).map Prod.snd = some v) :
    (t, v) ∈ data := by
  rcases hf : data.find? (fun p => p.1 == t) with _ | p
  · rw [hf] at h
    simp at h
  · obtain ⟨a, b⟩ := p
    rw [hf] at h
    simp at h
    have hp1 : a = t := by simpa using List.find?_some hf
    have hmem := List.mem_of_find?_eq_some hf
    rw [← hp1, ← h]
    exact hmem

theorem mergedRows_length (heart spo2 : List Sample) :
    (mergedRows heart spo2).length
      = ((heart.map Prod.fst ++ spo2.map Prod.fst).dedup).length := by
  simp [mergedRows, List.length_insertionSort]

/-- C5 (amended): the merged view has exactly one row per distinct
timestamp occurring in either series, in ascending lexicographic order;
a row's heart-rate cell is filled exactly when its timestamp occurs in
the heart-rate series (the oxygen cell likewise), a filled cell carries a
value paired with that timestamp in the corresponding series, and a
missing side is the empty marker `none`.  The row-count consequences hold
for series without internal duplicate timestamps: with disjoint timestamp
sets the row count is the sum of both lengths, and with identical
timestamp sets it is either series' length with both cells filled in
every row. -/
theorem C5_series_merge (heart spo2 : List Sample) :
    ((mergedRows heart spo2).map Prod.fst).Nodup
    ∧ List.Sorted (fun a b : List Char => a ≤ b)
        ((mergedRows heart spo2).map Prod.fst)
    ∧ (∀ t, t ∈ (mergedRows heart spo2).map Prod.fst
        ↔ (t ∈ heart.map Prod.fst ∨ t ∈ spo2.map Prod.fst))
    ∧ (∀ r ∈ mergedRows heart spo2,
        (r.2.1.isSome = true ↔ r.1 ∈ heart.map Prod.fst)
        ∧ (r.2.2.isSome = true ↔ r.1 ∈ spo2.map Prod.fst)
        ∧ (∀ v, r.2.1 = some v → (r.1, v) ∈ heart)
        ∧ (∀ v, r.2.2 = some v → (r.1, v) ∈ spo2))
    ∧ ((heart.map Prod.fst).Nodup → (spo2.map Prod.fst).Nodup →
        (∀ t ∈ heart.map Prod.fst, t ∉ spo2.map Prod.fst) →
        (mergedRows heart spo2).length = heart.length + spo2.length)
    ∧ ((heart.map Prod.fst).Nodup →
        (∀ t, t ∈ spo2.map Prod.fst ↔ t ∈ heart.map Prod.fst) →
        (mergedRows heart spo2).length = heart.length
        ∧ ∀ r ∈ mergedRows heart spo2,
            r.2.1.isSome = true ∧ r.2.2.isSome = true) := by
  refine ⟨mergedRows_keys_nodup heart spo2, mergedRows_keys_sorted heart spo2,
    mem_mergedRows_keys heart spo2, ?_, ?_, ?_⟩
  · intro r hr
    obtain ⟨h1, h2⟩ := mergedRows_cells heart spo2 r hr
    refine ⟨?_, ?_, ?_, ?_⟩
    · rw [h1, Option.isSome_map']
      exact find?_ts_isSome_iff heart r.1
    · rw [h2, Option.isSome_map']
      exact find?_ts_isSome_iff spo2 r.1
    · intro v hv
      exact find?_ts_some_mem heart r.1 v (h1 ▸ hv)
    · intro v hv
      exact find?_ts_some_mem spo2 r.1 v (h2 ▸ hv)
  · intro hn1 hn2 hdisj
    rw [mergedRows_length]
    have hnodup : (heart.map Prod.fst ++ spo2.map Prod.fst).Nodup :=
      List.nodup_append.mpr ⟨hn1, hn2, hdisj⟩
    rw [List.dedup_eq_self.mpr hnodup, List.length_append,
      List.length_map, List.length_map]
  · intro hn1 hset
    have hperm : List.Perm ((heart.map Prod.fst ++ spo2.map Prod.fst).dedup)
        (heart.map Prod.fst) := by
      rw [List.perm_ext_iff_of_nodup (List.nodup_dedup _) hn1]
      intro a
      rw [List.mem_dedup, List.mem_append]
      constructor
      · rintro (h | h)
        · exact h
        · exact (hset a).mp h
      · exact Or.inl
    constructor
    · rw [mergedRows_length, hperm.length_eq, List.length_map]
    · intro r hr
      obtain ⟨h1, h2⟩ := mergedRows_cells heart spo2 r hr
      have hmem : r.1 ∈ heart.map Prod.fst ∨ r.1 ∈ spo2.map Prod.fst := by
        rw [← mem_mergedRows_keys]
        exact List.mem_map_of_mem Prod.fst hr
      have hmem1 : r.1 ∈ heart.map Prod.fst := by
        rcases hmem with h | h
        · exact h
        · exact (hset r.1).mp h
      constructor
      · rw [h1, Option.isSome_map']
        exact (find?_ts_isSome_iff heart r.1).mpr hmem1
      · rw [h2, Option.isSome_map']
        exact (find?_ts_isSome_iff spo2 r.1).mpr ((hset r.1).mpr hmem1)

/-- C5 witness: series with disjoint timestamps `a` and `b` merge to
1 + 1 rows; series with the identical timestamp set `{a}` merge to a
single row. -/
theorem C5_witness :
    (mergedRows [(pyStr "a", PyVal.num 1)] [(pyStr "b", PyVal.num 2)]).length
      = 1 + 1
    ∧ (mergedRows [(pyStr "a", PyVal.num 1)] [(pyStr "a", PyVal.num 2)]).length
      = 1 := by
  refine ⟨?_, ?_⟩
  · exact (C5_series_merge [(pyStr "a", PyVal.num 1)]
      [(pyStr "b", PyVal.num 2)]).2.2.2.2.1 (by decide) (by decide) (by decide)
  · exact ((C5_series_merge [(pyStr "a", PyVal.num 1)]
      [(pyStr "a", PyVal.num 2)]).2.2.2.2.2 (by decide) (fun t => Iff.rfl)).1

/-- C5 counterexample: the heart series repeats the timestamp `a` and the
oxygen series is empty, so the two timestamp sets are disjoint; the claim
predicts 2 + 0 rows, but the merge emits one row per distinct timestamp:
a single row. -/
theorem C5_counterexample :
    ((([(pyStr "a", PyVal.num 1), (pyStr "a", PyVal.num 2)]
        : List Sample).map Prod.fst).all
      (fun t => !((([] : List Sample).map Prod.fst).contains t))) = true
    ∧ (mergedRows [(pyStr "a", PyVal.num 1), (pyStr "a", PyVal.num 2)] []).length
      ≠ ([(pyStr "a", PyVal.num 1), (pyStr "a", PyVal.num 2)]
          : List Sample).length + ([] : List Sample).length := by
  decide

/-- C10 (confirmed): the merged row count always equals the number of
distinct timestamps in the union of the two series, and when a timestamp
occurs more than once in a single series — either the heart series or
the oxygen series — the single row it yields carries that series' value
from the first occurrence of the timestamp (later occurrences are
ignored). -/
theorem C10_duplicate_timestamp_rows (heart spo2 : List Sample) :
    (mergedRows heart spo2).length
      = ((heart.map Prod.fst ++ spo2.map Prod.fst).dedup).length
    ∧ (∀ pre rest ts v, heart = pre ++ (ts, v) :: rest →
        (∀ p ∈ pre, p.1 ≠ ts) →
        List.count ts ((mergedRows heart spo2).map Prod.fst) = 1
        ∧ (ts, some v, (spo2.find? (fun p => p.1 == ts)).map Prod.snd)
            ∈ mergedRows heart spo2
        ∧ (∀ r ∈ mergedRows heart spo2, r.1 = ts → r.2.1 = some v))
    ∧ (∀ pre rest ts v, spo2 = pre ++ (ts, v) :: rest →
        (∀ p ∈ pre, p.1 ≠ ts) →
        List.count ts ((mergedRows heart spo2).map Prod.fst) = 1
        ∧ (ts, (heart.find? (fun p => p.1 == ts)).map Prod.snd, some v)
            ∈ mergedRows heart spo2
        ∧ (∀ r ∈ mergedRows heart spo2, r.1 = ts → r.2.2 = some v)) := by
  refine ⟨mergedRows_length heart spo2, ?_, ?_⟩
  · intro pre rest ts v hheart hpre
    have htsmem : ts ∈ heart.map Prod.fst := by
      subst hheart
      rw [List.map_append, List.mem_append]
      right
      rw [List.map_cons]
      exact List.mem_cons_self _ _
    have hfind : heart.find? (fun p => p.1 == ts) = some (ts, v) := by
      subst hheart
      rw [List.find?_append]
      have h1 : pre.find? (fun p => p.1 == ts) = none :=
        List.find?_eq_none.mpr (fun p hp => by simpa using hpre p hp)
      rw [h1, List.find?_cons_of_pos _ (by simp)]
      rfl
    refine ⟨?_, ?_, ?_⟩
    · have hone := List.count_eq_one_of_mem (mergedRows_keys_nodup heart spo2)
        ((mem_mergedRows_keys heart spo2 ts).mpr (Or.inl htsmem))
      calc List.count ts ((mergedRows heart spo2).map Prod.fst)
          = List.countP (fun a => a == ts)
              ((mergedRows heart spo2).map Prod.fst) := rfl
        _ = List.countP (fun a => decide (a = ts))
              ((mergedRows heart spo2).map Prod.fst) :=
            List.countP_congr (fun a _ => by by_cases hh : a = ts <;> simp [hh])
        _ = 1 := hone
    · have hts : ts ∈ List.insertionSort (fun a b : List Char => a ≤ b)
          ((heart.map Prod.fst ++ spo2.map Prod.fst).dedup) := by
        rw [List.mem_insertionSort, List.mem_dedup, List.mem_append]
        exact Or.inl htsmem
      have : (ts, (heart.find? (fun p => p.1 == ts)).map Prod.snd,
          (spo2.find? (fun p => p.1 == ts)).map Prod.snd)
            ∈ mergedRows heart spo2 :=
        List.mem_map_of_mem _ hts
      rwa [hfind] at this
    · intro r hr hrts
      obtain ⟨h1, _⟩ := mergedRows_cells heart spo2 r hr
      rw [h1, hrts, hfind]
      rfl
  · intro pre rest ts v hspo2 hpre
    have htsmem : ts ∈ spo2.map Prod.fst := by
      subst hspo2
      rw [List.map_append, List.mem_append]
      right
      rw [List.map_cons]
      exact List.mem_cons_self _ _
    have hfind : spo2.find? (fun p => p.1 == ts) = some (ts, v) := by
      subst hspo2
      rw [List.find?_append]
      have h1 : pre.find? (fun p => p.1 == ts) = none :=
        List.find?_eq_none.mpr (fun p hp => by simpa using hpre p hp)
      rw [h1, List.find?_cons_of_pos _ (by simp)]
      rfl
    refine ⟨?_, ?_, ?_⟩
    · have hone := List.count_eq_one_of_mem (mergedRows_keys_nodup heart spo2)
        ((mem_mergedRows_keys heart spo2 ts).mpr (Or.inr htsmem))
      calc List.count ts ((mergedRows heart spo2).map Prod.fst)
          = List.countP (fun a => a == ts)
              ((mergedRows heart spo2).map Prod.fst) := rfl
        _ = List.countP (fun a => decide (a = ts))
              ((mergedRows heart spo2).map Prod.fst) :=
            List.countP_congr (fun a _ => by by_cases hh : a = ts <;> simp [hh])
        _ = 1 := hone
    · have hts : ts ∈ List.insertionSort (fun a b : List Char => a ≤ b)
          ((heart.map Prod.fst ++ spo2.map Prod.fst).dedup) := by
        rw [List.mem_insertionSort, List.mem_dedup, List.mem_append]
        exact Or.inr htsmem
      have : (ts, (heart.find? (fun p => p.1 == ts)).map Prod.snd,
          (spo2.find? (fun p => p.1 == ts)).map Prod.snd)
            ∈ mergedRows heart spo2 :=
        List.mem_map_of_mem _ hts
      rwa [hfind] at this
    · intro r hr hrts
      obtain ⟨_, h2⟩ := mergedRows_cells heart spo2 r hr
      rw [h2, hrts, hfind]
      rfl

/-- C10 witness: a heart series repeating timestamp `a` with values 1
then 2 merges (against an empty oxygen series) into exactly one row for
`a`, carrying the first value 1; symmetrically, an oxygen series
repeating timestamp `b` with values 3 then 4 merges (against an empty
heart series) into exactly one row for `b`, carrying the first
value 3. -/
theorem C10_witness :
    List.count (pyStr "a")
      ((mergedRows [(pyStr "a", PyVal.num 1), (pyStr "a", PyVal.num 2)] []).map
        Prod.fst) = 1
    ∧ (pyStr "a", some (PyVal.num 1), none)
        ∈ mergedRows [(pyStr "a", PyVal.num 1), (pyStr "a", PyVal.num 2)] []
    ∧ List.count (pyStr "b")
      ((mergedRows [] [(pyStr "b", PyVal.num 3), (pyStr "b", PyVal.num 4)]).map
        Prod.fst) = 1
    ∧ (pyStr "b", none, some (PyVal.num 3))
        ∈ mergedRows [] [(pyStr "b", PyVal.num 3), (pyStr "b", PyVal.num 4)] := by
  have h := (C10_duplicate_timestamp_rows
      [(pyStr "a", PyVal.num 1), (pyStr "a", PyVal.num 2)] []).2.1
    [] [(pyStr "a", PyVal.num 2)] (pyStr "a") (PyVal.num 1) rfl (by decide)
  have h2 := (C10_duplicate_timestamp_rows
      [] [(pyStr "b", PyVal.num 3), (pyStr "b", PyVal.num 4)]).2.2
    [] [(pyStr "b", PyVal.num 4)] (pyStr "b") (PyVal.num 3) rfl (by decide)
  exact ⟨h.1, h.2.1, h2.1, h2.2.1⟩

end HealthMonitor
